import Mathlib

/-!
# ChronoTune — verification of the year-resolution and placement engine

A shallow embedding of `src/chronotune.py` (classes `EnhancedMusicIdentifier`
and `UltraMusicFilter`).  External capabilities (the mutagen tag reader, the
Spotify search API, `datetime.now()`, the filesystem) are modelled as explicit
inputs; machine behaviour that the program only observes through equality
(the md5 digest of the fingerprint payload) is modelled by the payload itself.
Python floats are modelled by exact rationals (built with `mkRat` so that all
values evaluate by kernel reduction); Python truthiness of strings and
integers is modelled explicitly.  String scanners are written over `List Char`
with structural recursion (a fuel argument bounded by the list length where
the scanner skips ahead), so every definition evaluates by `decide`/`rfl`.
Strings are assumed newline-free (they are filename stems and tag fields), so
the regex `.` matches any character; case-folding is modelled on ASCII.
-/

namespace Chronotune

/-! ## Python string primitives -/

/-- Worker for `pyWords`: accumulates the current word (reversed). -/
def wordsAux : List Char → List Char → List String
  | [], acc => if acc = [] then [] else [String.mk acc.reverse]
  | c :: rest, acc =>
    if c.isWhitespace then
      if acc = [] then wordsAux rest [] else String.mk acc.reverse :: wordsAux rest []
    else wordsAux rest (c :: acc)

/-- Python `s.split()` with no argument: whitespace-separated words, empty
pieces dropped. -/
def pyWords (s : String) : List String :=
  wordsAux s.data []

/-- Join words with single spaces (Python `' '.join(ws)`). -/
def joinWords : List String → String
  | [] => ""
  | [w] => w
  | w :: rest => w ++ " " ++ joinWords rest

/-- Python `re.sub(r'\s+', ' ', s).strip()`: collapse whitespace runs to a
single space and trim the ends. -/
def collapseWs (s : String) : String :=
  joinWords (pyWords s)

/-- Drop whitespace from both ends of a char list. -/
def trimChars (cs : List Char) : List Char :=
  ((cs.dropWhile Char.isWhitespace).reverse.dropWhile Char.isWhitespace).reverse

/-- Python `s.strip()`. -/
def pyStrip (s : String) : String :=
  String.mk (trimChars s.data)

/-- Python `s.lower()` (ASCII model). -/
def lowerStr (s : String) : String :=
  String.mk (s.data.map Char.toLower)

/-- Python truthiness of an optional string (`None` and `""` are falsy). -/
def strTruthy : Option String → Bool
  | none => false
  | some s => s ≠ ""

/-- Python truthiness of an optional integer (`None` and `0` are falsy). -/
def intTruthy : Option Int → Bool
  | none => false
  | some n => n ≠ 0

/-- Python regex `\w` on ASCII: letters, digits, underscore. -/
def isWordChar (c : Char) : Bool :=
  c.isAlphanum || c = '_'

/-- Decimal value of a digit list (most significant first). -/
def digitsVal (cs : List Char) : Nat :=
  cs.foldl (fun a c => a * 10 + (c.toNat - 48)) 0

/-- Python `int(s)` on a decimal string: optional surrounding whitespace,
optional sign, at least one digit.  `none` where Python raises `ValueError`
(every caller in the source catches that locally).  PEP 515 underscore
grouping is not modelled. -/
def pyInt? (s : String) : Option Int :=
  match (pyStrip s).data with
  | '-' :: rest =>
      if rest ≠ [] ∧ rest.all Char.isDigit then some (-(Int.ofNat (digitsVal rest))) else none
  | '+' :: rest =>
      if rest ≠ [] ∧ rest.all Char.isDigit then some (Int.ofNat (digitsVal rest)) else none
  | cs =>
      if cs ≠ [] ∧ cs.all Char.isDigit then some (Int.ofNat (digitsVal cs)) else none

/-! ## Rational helpers

`Rat.mul`/`Rat.add` are `@[irreducible]` in Batteries, which blocks `decide`;
the model therefore multiplies and adds scores through `mkRat` on numerators
and denominators, which denotes the same rational number. -/

/-- Exact product of two rationals, built so it evaluates by reduction. -/
def qMul (a b : ℚ) : ℚ := mkRat (a.num * b.num) (a.den * b.den)

/-- Exact sum of two rationals, built so it evaluates by reduction. -/
def qAdd (a b : ℚ) : ℚ := mkRat (a.num * b.den + b.num * a.den) (a.den * b.den)

/-! ## Token-set similarity (`EnhancedMusicIdentifier._similarity`,
src/chronotune.py:380-394) -/

/-- The whitespace-token set of a string, as built by `set(s.split())`. -/
def tokenSet (s : String) : Finset String :=
  (pyWords s).toFinset

/-- `_similarity`: token-set Jaccard similarity, with the two truthiness
guards of the source (`if not s1 or not s2` and
`if not s1_words or not s2_words`) and the final `if union else 0.0`
ternary. -/
def similarity (s1 s2 : String) : ℚ :=
  if s1 = "" ∨ s2 = "" then 0
  else if tokenSet s1 = ∅ ∨ tokenSet s2 = ∅ then 0
  else if tokenSet s1 ∪ tokenSet s2 = ∅ then 0
  else mkRat ((tokenSet s1 ∩ tokenSet s2).card : Int) ((tokenSet s1 ∪ tokenSet s2).card)

/-! ## Decimal rendering (Python `str(counter)` / `str(size)`) -/

/-- The character of a decimal digit. -/
def digitChar (n : Nat) : Char := Char.ofNat (48 + n)

/-- Digits of `n`, least significant first; fuel-driven so it reduces. -/
def digitsGo : Nat → Nat → List Nat
  | 0, _ => []
  | fuel + 1, n => if n < 10 then [n] else n % 10 :: digitsGo fuel (n / 10)

/-- Decimal digits of `n`, least significant first. -/
def decimalDigits (n : Nat) : List Nat := digitsGo (n + 1) n

/-- Decimal rendering of a natural number, as Python `str(n)`. -/
def decimalStr (n : Nat) : String :=
  String.mk ((decimalDigits n).reverse.map digitChar)

/-- Value of a little-endian digit list (inverse of `decimalDigits`). -/
def undigits : List Nat → Nat
  | [] => 0
  | d :: rest => d + 10 * undigits rest

/-- Digit value of a character. -/
def charDigit (c : Char) : Nat := c.toNat - 48

/-! ## Regex scanners

Each scanner implements one concrete regex substitution of the source, with
`re.sub`'s leftmost, non-overlapping scan and the lazy-group backtracking
order worked out by hand.  Scanners that jump ahead carry a fuel argument
(always called with the list length, which bounds the number of steps). -/

/-- Case-insensitive literal match at the head: `pat` is pre-lowercased. -/
def ciMatchAt (pat cs : List Char) : Bool :=
  (cs.take pat.length).map Char.toLower = pat

/-- `re.sub(pat, '', s, flags=re.I)` for a literal pattern: remove all
non-overlapping occurrences, scanning left to right. -/
def removeAllCI (pat : List Char) : Nat → List Char → List Char
  | 0, cs => cs
  | _ + 1, [] => []
  | fuel + 1, c :: rest =>
    if ciMatchAt pat (c :: rest) then removeAllCI pat fuel ((c :: rest).drop pat.length)
    else c :: removeAllCI pat fuel rest

/-- Index of the first case-insensitive occurrence of `pat` (pre-lowercased). -/
def findCIAux (pat : List Char) : List Char → Option Nat
  | [] => none
  | c :: tl => if ciMatchAt pat (c :: tl) then some 0 else (findCIAux pat tl).map (· + 1)

/-- `re.sub(pat + '.*', '', s, flags=re.I)`: truncate at the first
case-insensitive occurrence of the literal `pat` (the trailing `.*` eats the
rest of the line). -/
def truncAtCI (pat : String) (cs : List Char) : List Char :=
  match findCIAux (pat.data.map Char.toLower) cs with
  | some i => cs.take i
  | none => cs

/-- `re.sub(r'\[.*?\]', '', s)`: at each `'['`, the lazy group runs to the
first `']'`; a `'['` with no closing `']'` is left in place. -/
def stripBrackets : Nat → List Char → List Char
  | 0, cs => cs
  | _ + 1, [] => []
  | fuel + 1, c :: rest =>
    if c = '[' then
      match rest.findIdx? (fun x => x = ']') with
      | some i => stripBrackets fuel (rest.drop (i + 1))
      | none => c :: stripBrackets fuel rest
    else c :: stripBrackets fuel rest

/-- `re.sub(r'@\w+', '', s)`: drop each `'@'` together with the maximal
nonempty run of word characters after it. -/
def stripAtMentions : Nat → List Char → List Char
  | 0, cs => cs
  | _ + 1, [] => []
  | fuel + 1, c :: rest =>
    if c = '@' then
      let w := rest.takeWhile isWordChar
      if w = [] then c :: stripAtMentions fuel rest
      else stripAtMentions fuel (rest.drop w.length)
    else c :: stripAtMentions fuel rest

/-- The noise keywords of the parenthetical filter in `extract_metadata`
(src/chronotune.py:218), lowercased. -/
def noiseKeywords : List (List Char) :=
  [("official".data), ("video".data), ("audio".data), ("lyrics".data),
   ("hd".data), ("hq".data), ("4k".data), ("remix".data), ("edit".data)]

/-- Length of the noise keyword matching at the head, if any. -/
def kwAt (cs : List Char) : Option Nat :=
  noiseKeywords.findSome? fun kw => if ciMatchAt kw cs then some kw.length else none

/-- After an opening `'('`: number of characters (from just after the `'('`,
through the matching `')'`) consumed by
`\(.*?(official|video|...).*?\)`, following the lazy-group backtracking
order: the first keyword occurrence that still has a `')'` after it wins,
and the `')'` is the earliest one after that keyword. -/
def noiseEnd : List Char → Nat → Option Nat
  | [], _ => none
  | l :: tl, q =>
    match kwAt (l :: tl) with
    | some len =>
      match ((l :: tl).drop len).findIdx? (fun x => x = ')') with
      | some r => some (q + len + r + 1)
      | none => noiseEnd tl (q + 1)
    | none => noiseEnd tl (q + 1)

/-- `re.sub(r'\(.*?(official|video|audio|lyrics|hd|hq|4k|remix|edit).*?\)',
'', s, flags=re.I)`. -/
def stripNoiseParen : Nat → List Char → List Char
  | 0, cs => cs
  | _ + 1, [] => []
  | fuel + 1, c :: rest =>
    if c = '(' then
      match noiseEnd rest 0 with
      | some n => stripNoiseParen fuel (rest.drop n)
      | none => c :: stripNoiseParen fuel rest
    else c :: stripNoiseParen fuel rest

/-! ## Filename separator split (`extract_metadata` fallback,
src/chronotune.py:220-231)

`re.match(r'^(.+?)\s*SEP\s*(.+?)$', s)`: with the lazy groups, separator
characters disjoint from whitespace, and the `$` anchor, the successful match
splits at the first separator character at index ≥ 1 that has at least one
character after it; both groups are then `.strip()`ed (the `\s*` gaps
disappear under the strip). -/

/-- First separator index ≥ 1 that still has a character after it; the scan
starts on the tail with position counter 1. -/
def sepIdxGo (isSep : Char → Bool) : List Char → Nat → Option Nat
  | [], _ => none
  | [_], _ => none
  | c :: rest, p => if isSep c then some p else sepIdxGo isSep rest (p + 1)

/-- `re.match(r'^(.+?)\s*[SEP]\s*(.+?)$', s)` returning the two stripped
groups. -/
def sepSplit (isSep : Char → Bool) (s : String) : Option (String × String) :=
  match s.data with
  | [] => none
  | _ :: tl =>
    match sepIdxGo isSep tl 1 with
    | none => none
    | some p =>
        some (pyStrip (String.mk (s.data.take p)), pyStrip (String.mk (s.data.drop (p + 1))))

/-- The characters of the dash separator class `[-–—]`. -/
def isDashSep (c : Char) : Bool := c = '-' || c = '–' || c = '—'

/-! ## Filename year patterns (`identify_year` priority 3,
src/chronotune.py:440-456) -/

/-- Integer value of the four matched year digits `'2' '0' d e`. -/
def yearVal (d e : Char) : Int :=
  Int.ofNat (2000 + 10 * (d.toNat - 48) + (e.toNat - 48))

/-- Leftmost match of `[^\d](20[0-2][0-9])[^\d]`. -/
def p1Match : List Char → Option Int
  | a :: b :: c :: d :: e :: f :: rest =>
    if ¬a.isDigit ∧ b = '2' ∧ c = '0' ∧ (d = '0' ∨ d = '1' ∨ d = '2') ∧ e.isDigit ∧ ¬f.isDigit
    then some (yearVal d e)
    else p1Match (b :: c :: d :: e :: f :: rest)
  | _ => none

/-- Match of `^(20[0-2][0-9])[^\d]`. -/
def p2Match : List Char → Option Int
  | b :: c :: d :: e :: f :: _ =>
    if b = '2' ∧ c = '0' ∧ (d = '0' ∨ d = '1' ∨ d = '2') ∧ e.isDigit ∧ ¬f.isDigit
    then some (yearVal d e)
    else none
  | _ => none

/-- Match of `[^\d](20[0-2][0-9])$` (a match can only end at the end of the
string, so only the last five characters are relevant). -/
def p3Match (cs : List Char) : Option Int :=
  match cs.reverse with
  | e :: d :: c :: b :: a :: _ =>
    if ¬a.isDigit ∧ b = '2' ∧ c = '0' ∧ (d = '0' ∨ d = '1' ∨ d = '2') ∧ e.isDigit
    then some (yearVal d e)
    else none
  | _ => none

/-- The `for pattern in year_patterns` loop: first pattern whose match is in
`[2000, 2030]`, trying the three patterns in source order. -/
def runPats : List (List Char → Option Int) → List Char → Option Int
  | [], _ => none
  | p :: ps, cs =>
    match p cs with
    | some y => if 2000 ≤ y ∧ y ≤ 2030 then some y else runPats ps cs
    | none => runPats ps cs

/-- The whole filename-year scan of `identify_year` on the file stem. -/
def scanStem (stem : String) : Option Int :=
  runPats [p1Match, p2Match, p3Match] stem.data

/-- The boundary before a token: start of string or a non-digit. -/
def boundaryOk : Option Char → Bool
  | none => true
  | some a => !a.isDigit

/-- The boundary after the token: end of string or a non-digit. -/
def tailBoundaryOk : List Char → Bool
  | [] => true
  | f :: _ => !f.isDigit

/-- Modelled from the claim wording (not from the source; used to compare the
spec's description of the filename scan against `scanStem`): the first
4-digit token `20[0-2][0-9]` bounded on each side by a non-digit character or
by the start/end of the string, filtered to `[2000, 2030]`. -/
def specYearTokenGo : Option Char → List Char → Option Int
  | prev, b :: c :: d :: e :: rest =>
    if b = '2' ∧ c = '0' ∧ (d = '0' ∨ d = '1' ∨ d = '2') ∧ e.isDigit ∧
       boundaryOk prev ∧ tailBoundaryOk rest ∧
       2000 ≤ yearVal d e ∧ yearVal d e ≤ 2030
    then some (yearVal d e)
    else specYearTokenGo (some b) (c :: d :: e :: rest)
  | _, _ => none

/-- Spec-side "first bounded year token" of a stem (see `specYearTokenGo`). -/
def specFirstYearToken (stem : String) : Option Int :=
  specYearTokenGo none stem.data

/-! ## Tag metadata (`EnhancedMusicIdentifier.extract_metadata`,
src/chronotune.py:146-244)

The mutagen calls are the external tag-reading capability: `TagRead.raise`
models `MutagenFile` raising (caught at line 210), `TagRead.nofile` models a
falsy `audio` object, and `TagRead.ok` carries the stream info together with
the per-format tag dictionary (`none` when the per-format reader `EasyID3` /
`MP4` / `FLAC` raises, which each format's own `except` swallows).  The three
recognised formats read the same five logical fields, so one record covers
them. -/

structure TagData where
  title : Option String
  artist : Option String
  album : Option String
  genre : Option String
  date : Option String
deriving DecidableEq

inductive TagRead where
  | raise
  | nofile
  | ok (duration : Option Int) (bitrate : Option Int) (tags : Option TagData)
deriving DecidableEq

structure Metadata where
  title : Option String
  artist : Option String
  album : Option String
  year : Option Int
  duration : Option Int
  genre : Option String
  bitrate : Option Int
deriving DecidableEq

/-- `metadata['year'] = int(str(date)[:4])` guarded by
`if date and len(str(date)) >= 4`; a `ValueError` from `int` is swallowed by
the per-format `except` and leaves the year `None`. -/
def tagYear : Option String → Option Int
  | none => none
  | some d => if d ≠ "" ∧ 4 ≤ d.data.length then pyInt? (String.mk (d.data.take 4)) else none

/-- Suffixes whose branch in `extract_metadata` reads tags (the suffix is
lowercased first). -/
def readsTags (suffix : String) : Bool :=
  let sfx := lowerStr suffix
  sfx = ".mp3" || sfx = ".m4a" || sfx = ".mp4" || sfx = ".flac"

/-- The final cleanup loop (lines 236-239): collapse whitespace in every
truthy string field. -/
def cleanField : Option String → Option String
  | none => none
  | some s => if s ≠ "" then some (collapseWs s) else some s

/-- The per-file environment: the path-derived strings and the two external
per-file observations (the `stat` result and the tag read). -/
structure FileEnv where
  pathStr : String
  name : String
  stem : String
  suffix : String
  stat : Option (Nat × String)
  tagRead : TagRead

/-- Tag reading (lines 158-212): stream info plus the per-format tag
dictionary (only the four recognised suffixes read tags). -/
def tagStep (f : FileEnv) : Metadata :=
  let base : Metadata := ⟨none, none, none, none, none, none, none⟩
  match f.tagRead with
  | .raise => base
  | .nofile => base
  | .ok dur bit tagres =>
    let m0 := { base with duration := dur, bitrate := bit }
    if readsTags f.suffix then
      match tagres with
      | some td =>
        { m0 with title := td.title, artist := td.artist, album := td.album,
                  genre := td.genre, year := tagYear td.date }
      | none => m0
    else m0

/-- The ordered separator patterns of the filename fallback (lines 220-231):
dash class, then `|`, then `/`, first match wins. -/
def splitStem (trimmed : String) : Option (String × String) :=
  match sepSplit isDashSep trimmed with
  | some r => some r
  | none =>
    match sepSplit (fun c => c = '|') trimmed with
    | some r => some r
    | none => sepSplit (fun c => c = '/') trimmed

/-- The filename fallback (lines 214-234): when title or artist is falsy,
strip brackets and parenthetical noise from the stem, split on the first
separator pattern, and default the title to the cleaned stem. -/
def fallbackStep (stem : String) (md1 : Metadata) : Metadata :=
  if strTruthy md1.title ∧ strTruthy md1.artist then md1
  else
    let fn1 := stripBrackets stem.data.length stem.data
    let fn2 := String.mk (stripNoiseParen fn1.length fn1)
    let trimmed := pyStrip fn2
    let md' :=
      match splitStem trimmed with
      | some g =>
        { md1 with artist := if strTruthy md1.artist then md1.artist else some g.1,
                   title := if strTruthy md1.title then md1.title else some g.2 }
      | none => md1
    if strTruthy md'.title then md' else { md' with title := some trimmed }

/-- The final cleanup pass (lines 236-239). -/
def cleanupStep (md : Metadata) : Metadata :=
  { md with title := cleanField md.title, artist := cleanField md.artist,
            album := cleanField md.album, genre := cleanField md.genre }

/-- `extract_metadata`: tag fields (by format), then the filename fallback
for missing title/artist (bracket strip, parenthetical-noise strip, ordered
separator patterns), then whitespace cleanup. -/
def extractMetadata (f : FileEnv) : Metadata :=
  cleanupStep (fallbackStep f.stem (tagStep f))

/-! ## Spotify search (`search_spotify` / `_try_search`,
src/chronotune.py:246-378)

The Spotify API is the external search capability: a function from the query
string to either an exception (`Except.error`, caught inside `_try_search`)
or the candidate track list (`results['tracks']['items']`, at most 15
entries).  Alongside its result, each searching function returns the list of
queries actually sent to the capability, so theorems can count search
calls. -/

structure Track where
  name : String
  artists : List String
  releaseDate : String
deriving DecidableEq

def SearchCap := String → Except Unit (List Track)

/-- The candidate score of `_try_search`: `0.7·title + 0.3·artist` when an
artist was supplied (truthy), else the title similarity alone; everything is
lowercased first. -/
def trackScore (artist : Option String) (title : String) (tr : Track) : ℚ :=
  let trackTitle := lowerStr tr.name
  let trackArtist := match tr.artists with | [] => "" | a :: _ => lowerStr a
  let titleScore := similarity (lowerStr title) trackTitle
  if strTruthy artist then
    qAdd (qMul titleScore (mkRat 7 10))
         (qMul (similarity (lowerStr (artist.getD "")) trackArtist) (mkRat 3 10))
  else titleScore

/-- The best-candidate fold of `_try_search`: strictly greater score wins,
starting from `(None, 0)`. -/
def bestTrack (artist : Option String) (title : String) (tracks : List Track) :
    Option Track × ℚ :=
  tracks.foldl
    (fun acc tr =>
      let sc := trackScore artist title tr
      if acc.2 < sc then (some tr, sc) else acc)
    ((none : Option Track), (0 : ℚ))

/-- `_try_search`: build the query (strip non-word characters, collapse
whitespace, truncate to 100 characters, reject shorter than 3), call the
capability, pick the best-scoring candidate, accept it over threshold 0.35
and parse the first four characters of its release date.  Any exception
(capability failure or `int` parse) yields `None` for this strategy only. -/
def pyTrySearch (cap : SearchCap) (artist : Option String) (title : String) :
    Option Int × List String :=
  let query0 := if strTruthy artist then (artist.getD "") ++ " " ++ title else title
  let query1 := String.mk (query0.data.map (fun c => if isWordChar c || c.isWhitespace then c else ' '))
  let query := String.mk ((collapseWs query1).data.take 100)
  if query = "" ∨ query.data.length < 3 then (none, [])
  else
    match cap query with
    | Except.error _ => (none, [query])
    | Except.ok tracks =>
      if tracks = [] then (none, [query])
      else
        let best := bestTrack artist title tracks
        match best.1 with
        | none => (none, [query])
        | some bm =>
          if mkRat 35 100 < best.2 then
            (if bm.releaseDate ≠ "" ∧ 4 ≤ bm.releaseDate.data.length
             then pyInt? (String.mk (bm.releaseDate.data.take 4))
             else none, [query])
          else (none, [query])

/-- The `remove_patterns` loop of `search_spotify` (lines 256-273), applied
to one string: the four case-variant parenthesised live markers, the five
truncating patterns (`DVD.*`, `feat\.?.*`, `ft\.?.*`, `Transcende.*`,
`Ao Vivo.*`), `@\w+`, `\[.*?\]` and `Deluxe`, in source order, all with
`re.I`. -/
def applyRemovePatterns (s : String) : String :=
  let cs := s.data
  let cs := removeAllCI ("(ao vivo)".data) cs.length cs
  let cs := removeAllCI ("(ao vivo)".data) cs.length cs
  let cs := removeAllCI ("(live)".data) cs.length cs
  let cs := removeAllCI ("(live)".data) cs.length cs
  let cs := truncAtCI "dvd" cs
  let cs := truncAtCI "feat" cs
  let cs := truncAtCI "ft" cs
  let cs := stripAtMentions cs.length cs
  let cs := stripBrackets cs.length cs
  let cs := removeAllCI ("deluxe".data) cs.length cs
  let cs := truncAtCI "transcende" cs
  let cs := truncAtCI "ao vivo" cs
  String.mk cs

/-- `clean_artist.split('&')[0].split(',')[0].strip()`. -/
def firstArtist (ca : String) : String :=
  pyStrip (String.mk ((ca.data.takeWhile (fun c => c ≠ '&')).takeWhile (fun c => c ≠ ',')))

/-- The cleaned title of `search_spotify`: noise patterns removed, truncated
at the first `'|'` or `'/'`, stripped, whitespace collapsed. -/
def cleanTitleOf (title : String) : String :=
  let ct1 := applyRemovePatterns title
  collapseWs (pyStrip (String.mk ((ct1.data.takeWhile (fun c => c ≠ '|')).takeWhile (fun c => c ≠ '/'))))

/-- The cleaned artist of `search_spotify` (falsy argument becomes `""`;
no `|`/`/` truncation is applied to the artist). -/
def cleanArtistOf (artist : Option String) : String :=
  collapseWs (applyRemovePatterns (if strTruthy artist then artist.getD "" else ""))

/-- One guarded strategy attempt of `search_spotify`: the strategy's `if`
guard around its `_try_search` call (a skipped strategy contributes no
result and no query). -/
def stratAttempt (cap : SearchCap) (g : Prop) [Decidable g] (artist : Option String)
    (title : String) : Option Int × List String :=
  if g then pyTrySearch cap artist title else (none, [])

/-- The strategy cascade of `search_spotify` over the already-cleaned artist
`ca` and title `ct`: the five guarded attempts in source order,
short-circuiting on the first truthy year. -/
def searchCore (cap : SearchCap) (ca ct : String) : Option Int × List String :=
  let s1 := stratAttempt cap (ca ≠ "" ∧ ct ≠ "") (some ca) ct
  if intTruthy s1.1 then s1
  else
    let s2 := stratAttempt cap (ct ≠ "") none ct
    if intTruthy s2.1 then (s2.1, s1.2 ++ s2.2)
    else
      let s3 := stratAttempt cap (ca ≠ "" ∧ ca.data.any (fun c => c = ' '))
        (some (firstArtist ca)) ct
      if intTruthy s3.1 then (s3.1, s1.2 ++ s2.2 ++ s3.2)
      else
        let s4 := stratAttempt cap (ca ≠ "" ∧ 3 < (pyWords ct).length)
          (some ca) (joinWords ((pyWords ct).take 3))
        if intTruthy s4.1 then (s4.1, s1.2 ++ s2.2 ++ s3.2 ++ s4.2)
        else
          let s5 := stratAttempt cap (2 ≤ (pyWords ct).length)
            (if ca ≠ "" then some ca else none) (joinWords ((pyWords ct).take 2))
          if intTruthy s5.1 then (s5.1, s1.2 ++ s2.2 ++ s3.2 ++ s4.2 ++ s5.2)
          else (none, s1.2 ++ s2.2 ++ s3.2 ++ s4.2 ++ s5.2)

/-- `search_spotify`: guard on the Spotify flags, clean title and artist,
then run the strategy cascade.  The second component is the concatenated
query log of every `_try_search` call actually made. -/
def searchSpotify (cap : SearchCap) (enabled conn : Bool) (title : String)
    (artist : Option String) : Option Int × List String :=
  if ¬enabled ∨ ¬conn then (none, [])
  else searchCore cap (cleanArtistOf artist) (cleanTitleOf title)

/-! ## Cache and `identify_year` (src/chronotune.py:115-144, 396-475) -/

/-- A cache entry as stored in `music_cache.json`.  Fields are optional
because a loaded entry may miss keys; `identify_year` reads them back with
`cached.get('year')`, `cached.get('source', 'cache')`,
`cached.get('confidence', 0.5)`. -/
structure CacheEntry where
  year : Option Int
  source : Option String
  confidence : Option ℚ
  timestamp : Option String
deriving DecidableEq

/-- The cache dictionary, modelled as an association list whose lookup sees
the most recent binding (Python dict assignment overwrites the key). -/
def Cache := List (String × CacheEntry)

def cacheGet : Cache → String → Option CacheEntry
  | [], _ => none
  | (k', v) :: rest, k => if k' = k then some v else cacheGet rest k

def cacheSet (c : Cache) (k : String) (v : CacheEntry) : Cache := (k, v) :: c

/-- `get_file_hash` (lines 135-144): md5 over `str(size) + name + str(mtime)`
when `stat` succeeds, else the path string.  The digest is modelled by its
payload, since the program only ever compares digests for equality. -/
def getFileHash (f : FileEnv) : String :=
  match f.stat with
  | some st => decimalStr st.1 ++ f.name ++ st.2
  | none => f.pathStr

/-- The run-level environment of the identifier: the two Spotify flags
(`spotify_enabled` and a non-`None` `spotify` client) and the
`datetime.now().isoformat()` timestamp used for cache writes. -/
structure IdEnv where
  spotifyEnabled : Bool
  spotifyConn : Bool
  now : String

/-- `_cache_result` writes this entry (only for a non-null year). -/
def mkEntry (y : Option Int) (src : String) (conf : ℚ) (now : String) : CacheEntry :=
  ⟨y, some src, some conf, some now⟩

/-- Priority 2 of the waterfall: the guarded Spotify call
(`if self.spotify_enabled and metadata['title']`). -/
def spotifyStep (cap : SearchCap) (env : IdEnv) (md : Metadata) : Option Int × List String :=
  if env.spotifyEnabled ∧ strTruthy md.title then
    searchSpotify cap env.spotifyEnabled env.spotifyConn (md.title.getD "") md.artist
  else (none, [])

/-- `identify_year` (lines 396-465) together with `_cache_result`
(lines 467-475): cache lookup, tag metadata (confidence 0.95), Spotify search
(0.85 with artist, 0.70 without), filename-year scan (0.60), else
`(None, 'unknown', 0.0)`.  Returns the result triple, the updated cache, and
the list of search queries issued. -/
def identifyYear (cap : SearchCap) (env : IdEnv) (f : FileEnv) (cache : Cache) :
    (Option Int × String × ℚ) × Cache × List String :=
  let fileHash := getFileHash f
  match cacheGet cache fileHash with
  | some cached =>
      ((cached.year, cached.source.getD "cache", cached.confidence.getD (mkRat 1 2)), cache, [])
  | none =>
    let md := extractMetadata f
    if intTruthy md.year then
      ((md.year, "metadata", mkRat 95 100),
       cacheSet cache fileHash (mkEntry md.year "metadata" (mkRat 95 100) env.now), [])
    else
      let sres := spotifyStep cap env md
      if intTruthy sres.1 then
        let conf := if strTruthy md.artist then mkRat 85 100 else mkRat 70 100
        ((sres.1, "spotify", conf),
         cacheSet cache fileHash (mkEntry sres.1 "spotify" conf env.now), sres.2)
      else
        match scanStem f.stem with
        | some y =>
            ((some y, "filename", mkRat 60 100),
             cacheSet cache fileHash (mkEntry (some y) "filename" (mkRat 60 100) env.now), sres.2)
        | none => ((none, "unknown", 0), cache, sres.2)

/-! ## Placement (`UltraMusicFilter.move_file`, src/chronotune.py:601-628) -/

inductive Dest where
  | targetYear (y : Int)
  | outrosAnos
  | naoIdentificadas
deriving DecidableEq

/-- The destination selection of `move_file` (lines 607-615):
`if year in self.target_years: ... elif year and confidence >= 0.5: ...
else: ...` with Python truthiness of `year` (`None` and `0` falsy). -/
def moveDest (targetYears : Finset Int) (year : Option Int) (confidence : ℚ) : Dest :=
  match year with
  | some y =>
      if y ∈ targetYears then .targetYear y
      else if y ≠ 0 ∧ mkRat 1 2 ≤ confidence then .outrosAnos
      else .naoIdentificadas
  | none => .naoIdentificadas

/-- The collision candidate `f"{stem}_{counter}{suffix}"`. -/
def mkCand (stem suffix : String) (k : Nat) : String :=
  stem ++ "_" ++ decimalStr k ++ suffix

/-- The `while dest_path.exists()` loop of `move_file` (lines 621-624),
fuel-driven (called with fuel `fs.card + 1`, which always suffices). -/
def findFree (fs : Finset String) (stem suffix : String) : Nat → Nat → String
  | 0, k => mkCand stem suffix k
  | fuel + 1, k =>
    if mkCand stem suffix k ∈ fs then findFree fs stem suffix fuel (k + 1)
    else mkCand stem suffix k

/-- The destination filename chosen by `move_file` inside a destination
directory whose current contents are `fs` (the plain name `stem ++ suffix`
if free, else the collision loop). -/
def moveDestName (fs : Finset String) (stem suffix : String) : String :=
  if stem ++ suffix ∈ fs then findFree fs stem suffix (fs.card + 1) 1
  else stem ++ suffix

/-- `shutil.move` into the destination directory: the directory gains the
chosen name. -/
def moveInto (fs : Finset String) (stem suffix : String) : Finset String × String :=
  let n := moveDestName fs stem suffix
  (insert n fs, n)

/-! ## Spec-side strategy runner (for C8)

Modelled from the spec's words ("try strategies in this fixed order,
returning on first success"), to be compared with `searchSpotify` as
translated from the source. -/

/-- The five strategy argument builders of the spec, in order: `none` where
the source's guard skips the strategy, else `(artist argument, title
argument)`. -/
def strategyArgs (ca ct : String) : List (Option (Option String × String)) :=
  [ if ca ≠ "" ∧ ct ≠ "" then some (some ca, ct) else none,
    if ct ≠ "" then some (none, ct) else none,
    if ca ≠ "" ∧ ca.data.any (fun c => c = ' ') then some (some (firstArtist ca), ct) else none,
    if ca ≠ "" ∧ 3 < (pyWords ct).length then some (some ca, joinWords ((pyWords ct).take 3)) else none,
    if 2 ≤ (pyWords ct).length then
      some (if ca ≠ "" then some ca else none, joinWords ((pyWords ct).take 2)) else none ]

/-- Run the strategy list in order, returning on the first truthy year and
accumulating the query log of every attempt actually made. -/
def runStrategies (cap : SearchCap) : List (Option (Option String × String)) → Option Int × List String
  | [] => (none, [])
  | none :: rest => runStrategies cap rest
  | some sc :: rest =>
    let r := pyTrySearch cap sc.1 sc.2
    if intTruthy r.1 then r
    else ((runStrategies cap rest).1, r.2 ++ (runStrategies cap rest).2)

/-- The spec-side search engine: guard, clean, then run the ordered
strategy list. -/
def searchSpotifySpec (cap : SearchCap) (enabled conn : Bool) (title : String)
    (artist : Option String) : Option Int × List String :=
  if ¬enabled ∨ ¬conn then (none, [])
  else runStrategies cap (strategyArgs (cleanArtistOf artist) (cleanTitleOf title))

/-! ## Concrete fixtures used by the witnesses -/

def emptyTags : TagData := ⟨none, none, none, none, none⟩

def sampleTrack : Track := ⟨"Hello World", ["Adele"], "2015-10-23"⟩

/-- A search capability that answers one query with one good candidate. -/
def sampleCap : SearchCap :=
  fun q => if q = "Adele Hello World" then Except.ok [sampleTrack] else Except.ok []

/-- A search capability that always raises. -/
def errCap : SearchCap := fun _ => Except.error ()

/-- A search capability that always returns no candidates. -/
def emptyCap : SearchCap := fun _ => Except.ok []

def sampleEnv : IdEnv := ⟨true, true, "2026-10-12T00:00:00"⟩

def envNoSearch : IdEnv := ⟨false, false, "2026-10-12T00:00:00"⟩

/-- A file fixture in a given directory. -/
def sampleFileAt (dir stem suffix : String) (t : TagRead) : FileEnv :=
  ⟨dir ++ stem ++ suffix, stem ++ suffix, stem, suffix, some (1000, "1700000000.0"), t⟩

/-- A file fixture in the default directory. -/
def sampleFile (stem suffix : String) (t : TagRead) : FileEnv :=
  sampleFileAt "/music/" stem suffix t

/-- An mp3 tag read carrying a title, an artist and a date. -/
def mp3Tags (date : Option String) : TagRead :=
  TagRead.ok (some 180) (some 320) (some ⟨some "Song", some "Artist", none, none, date⟩)

/-! # Theorems -/

/-! ## C9 — similarity symmetry, bounds, and self-similarity -/

theorem tokenSet_empty : tokenSet "" = ∅ := rfl

/-- C9 counterexample: the claim demands `similarity(a, a) == 1` for every
nonempty string `a`, but on the whitespace-only nonempty string `" "` the
source's token-set guard (`if not s1_words or not s2_words`) returns `0.0`,
not `1`. -/
theorem similarity_self_whitespace_ne_one :
    (" " : String) ≠ "" ∧ similarity " " " " = 0 ∧ (0 : ℚ) ≠ 1 :=
  ⟨by decide, by decide, by norm_num⟩

/-- C9 (amended): for all strings `a`, `b`, `similarity` is symmetric and
lies in `[0, 1]`; and `similarity a a = 1` for every string `a` with at least
one whitespace-delimited token (nonempty whitespace-only strings yield `0`,
which is the one correction to the claim). -/
theorem similarity_symm_bounds (a b : String) :
    similarity a b = similarity b a ∧
    0 ≤ similarity a b ∧ similarity a b ≤ 1 ∧
    (tokenSet a ≠ ∅ → similarity a a = 1) := by
  refine ⟨?_, ?_, ?_, ?_⟩
  · unfold similarity
    rw [Finset.inter_comm, Finset.union_comm]
    by_cases h1 : a = "" <;> by_cases h2 : b = "" <;>
      simp [h1, h2, or_comm]
  · unfold similarity
    split_ifs
    · exact le_rfl
    · exact le_rfl
    · exact le_rfl
    · rw [Rat.mkRat_eq_div]
      positivity
  · unfold similarity
    split_ifs with h1 h2 h3
    · exact zero_le_one
    · exact zero_le_one
    · exact zero_le_one
    · have hne : (tokenSet a ∪ tokenSet b).Nonempty :=
        Finset.nonempty_iff_ne_empty.mpr h3
      have hpos : (0 : ℚ) < ((tokenSet a ∪ tokenSet b).card : ℚ) := by
        exact_mod_cast Finset.card_pos.mpr hne
      rw [Rat.mkRat_eq_div, div_le_one hpos]
      have hle : (tokenSet a ∩ tokenSet b).card ≤ (tokenSet a ∪ tokenSet b).card :=
        Finset.card_le_card Finset.inter_subset_union
      exact_mod_cast hle
  · intro h
    have ha : a ≠ "" := by
      intro h'
      exact h (h' ▸ tokenSet_empty)
    unfold similarity
    rw [if_neg (by simp [ha]), Finset.inter_self, Finset.union_self]
    rw [if_neg (by simp [h]), if_neg h]
    have hcard : (tokenSet a).card ≠ 0 := by
      have := Finset.card_pos.mpr (Finset.nonempty_iff_ne_empty.mpr h)
      omega
    rw [Rat.mkRat_eq_div]
    push_cast
    exact div_self (by exact_mod_cast hcard)

/-- C9 witness: the amended theorem applied at concrete strings. -/
theorem similarity_symm_bounds_witness :
    similarity "hello world" "world hello" = similarity "world hello" "hello world" ∧
    similarity "hello world" "hello world" = 1 :=
  ⟨(similarity_symm_bounds "hello world" "world hello").1,
   (similarity_symm_bounds "hello world" "hello world").2.2.2 (by decide)⟩

/-! ## Cache lemmas and the two evaluation lemmas for `identifyYear` -/

theorem cacheGet_set_self (c : Cache) (k : String) (v : CacheEntry) :
    cacheGet (cacheSet c k v) k = some v := by
  simp [cacheGet, cacheSet]

theorem cacheGet_set_ne (c : Cache) (k k' : String) (v : CacheEntry) (h : k' ≠ k) :
    cacheGet (cacheSet c k v) k' = cacheGet c k' := by
  simp [cacheGet, cacheSet, Ne.symm h]

/-- A cache hit returns the stored triple unchanged, with no search calls. -/
theorem identifyYear_hit (cap : SearchCap) (env : IdEnv) (f : FileEnv) (c : Cache)
    (e : CacheEntry) (h : cacheGet c (getFileHash f) = some e) :
    identifyYear cap env f c =
      ((e.year, e.source.getD "cache", e.confidence.getD (mkRat 1 2)), c, []) := by
  simp only [identifyYear, h]

/-- Any result of the year-range-checked pattern loop lies in `[2000, 2030]`. -/
theorem runPats_range (ps : List (List Char → Option Int)) (cs : List Char) (y : Int)
    (h : runPats ps cs = some y) : 2000 ≤ y ∧ y ≤ 2030 := by
  induction ps with
  | nil => simp [runPats] at h
  | cons p ps ih =>
    simp only [runPats] at h
    cases hp : p cs with
    | none => simp only [hp] at h; exact ih h
    | some y' =>
      simp only [hp] at h
      by_cases hr : 2000 ≤ y' ∧ y' ≤ 2030
      · rw [if_pos hr] at h
        cases h
        exact hr
      · rw [if_neg hr] at h
        exact ih h

theorem scanStem_range (stem : String) (y : Int) (h : scanStem stem = some y) :
    2000 ≤ y ∧ y ≤ 2030 :=
  runPats_range _ _ _ h

/-- On a cache miss, a run either resolves no year and leaves the cache
untouched (returning `(None, 'unknown', 0.0)`), or resolves a truthy year
and appends exactly the entry `_cache_result` builds from the returned
triple. -/
theorem identifyYear_miss_out (cap : SearchCap) (env : IdEnv) (f : FileEnv) (c : Cache)
    (h : cacheGet c (getFileHash f) = none) :
    ((identifyYear cap env f c).1.1 = none ∧ (identifyYear cap env f c).2.1 = c ∧
       (identifyYear cap env f c).1 = (none, "unknown", 0)) ∨
    ((∃ y, (identifyYear cap env f c).1.1 = some y ∧ y ≠ 0) ∧
     (identifyYear cap env f c).2.1 =
       cacheSet c (getFileHash f)
         (mkEntry (identifyYear cap env f c).1.1
           (identifyYear cap env f c).1.2.1 (identifyYear cap env f c).1.2.2 env.now)) := by
  simp only [identifyYear, h]
  by_cases h1 : intTruthy (extractMetadata f).year = true
  · rw [if_pos h1]
    right
    cases hmd : (extractMetadata f).year with
    | none => rw [hmd] at h1; simp [intTruthy] at h1
    | some y =>
      have hy0 : y ≠ 0 := by
        rw [hmd] at h1; simpa [intTruthy] using h1
      exact ⟨⟨y, rfl, hy0⟩, rfl⟩
  · rw [if_neg h1]
    by_cases h2 : intTruthy (spotifyStep cap env (extractMetadata f)).1 = true
    · rw [if_pos h2]
      right
      cases hs : (spotifyStep cap env (extractMetadata f)).1 with
      | none => rw [hs] at h2; simp [intTruthy] at h2
      | some y =>
        have hy0 : y ≠ 0 := by
          rw [hs] at h2; simpa [intTruthy] using h2
        exact ⟨⟨y, rfl, hy0⟩, rfl⟩
    · rw [if_neg h2]
      cases hscan : scanStem f.stem with
      | some y =>
        right
        have hy0 : y ≠ 0 := by
          have := scanStem_range f.stem y hscan
          omega
        exact ⟨⟨y, rfl, hy0⟩, rfl⟩
      | none =>
        left
        exact ⟨rfl, rfl, rfl⟩

/-! ## C1 — tag year short-circuits the waterfall -/

/-- C1: on a cache miss, when the extracted tag metadata contains a (truthy)
year `y`, `identify_year` returns exactly `(y, 'metadata', 0.95)`, caches it,
and issues no search call (the query log is empty).  Python treats a year of
`0` as absent, hence the `y ≠ 0` hypothesis. -/
theorem identifyYear_metadata_first (cap : SearchCap) (env : IdEnv) (f : FileEnv)
    (c : Cache) (y : Int)
    (hmiss : cacheGet c (getFileHash f) = none)
    (hy : (extractMetadata f).year = some y) (hy0 : y ≠ 0) :
    identifyYear cap env f c =
      ((some y, "metadata", mkRat 95 100),
       cacheSet c (getFileHash f) (mkEntry (some y) "metadata" (mkRat 95 100) env.now),
       []) := by
  have ht : intTruthy (extractMetadata f).year = true := by
    rw [hy]; simp [intTruthy, hy0]
  simp only [identifyYear, hmiss]
  rw [if_pos ht, hy]

/-- C1 witness: a concrete mp3 whose date tag is `"2024-01-01"`. -/
theorem identifyYear_metadata_first_witness :
    identifyYear sampleCap sampleEnv (sampleFile "Song" ".mp3" (mp3Tags (some "2024-01-01"))) [] =
      ((some 2024, "metadata", mkRat 95 100),
       cacheSet [] (getFileHash (sampleFile "Song" ".mp3" (mp3Tags (some "2024-01-01"))))
         (mkEntry (some 2024) "metadata" (mkRat 95 100) sampleEnv.now),
       []) :=
  identifyYear_metadata_first sampleCap sampleEnv _ [] 2024 rfl (by decide) (by decide)

/-! ## C2 — idempotence through the cache -/

/-- C2: if a run of `identify_year` resolves a non-null year, a second run on
the unchanged file (same fingerprint) — under any search capability and any
run environment — returns the same `(year, source, confidence)` triple from
the cache, leaves the cache unchanged, and issues zero search calls. -/
theorem identifyYear_cached_second_run (cap cap2 : SearchCap) (env env2 : IdEnv)
    (f : FileEnv) (c0 : Cache) (y : Int)
    (h : ((identifyYear cap env f c0).1).1 = some y) :
    identifyYear cap2 env2 f ((identifyYear cap env f c0).2.1) =
      ((identifyYear cap env f c0).1, (identifyYear cap env f c0).2.1, []) := by
  cases hc : cacheGet c0 (getFileHash f) with
  | some e =>
    have h1 := identifyYear_hit cap env f c0 e hc
    rw [h1]
    exact identifyYear_hit cap2 env2 f c0 e hc
  | none =>
    rcases identifyYear_miss_out cap env f c0 hc with ⟨hnone, _, _⟩ | ⟨_, hcache⟩
    · rw [h] at hnone; cases hnone
    · have hhit : cacheGet ((identifyYear cap env f c0).2.1) (getFileHash f) =
          some (mkEntry (identifyYear cap env f c0).1.1
            (identifyYear cap env f c0).1.2.1 (identifyYear cap env f c0).1.2.2 env.now) := by
        rw [hcache]; exact cacheGet_set_self ..
      rw [identifyYear_hit cap2 env2 f _ _ hhit]
      simp [mkEntry]

/-- C2 witness: second run over the cache written by the first. -/
theorem identifyYear_cached_second_run_witness :
    identifyYear errCap envNoSearch (sampleFile "Song" ".mp3" (mp3Tags (some "2024-01-01")))
        ((identifyYear sampleCap sampleEnv
           (sampleFile "Song" ".mp3" (mp3Tags (some "2024-01-01"))) []).2.1) =
      ((identifyYear sampleCap sampleEnv
         (sampleFile "Song" ".mp3" (mp3Tags (some "2024-01-01"))) []).1,
       (identifyYear sampleCap sampleEnv
         (sampleFile "Song" ".mp3" (mp3Tags (some "2024-01-01"))) []).2.1,
       []) :=
  identifyYear_cached_second_run sampleCap errCap sampleEnv envNoSearch _ [] 2024 (by decide)

/-! ## C3 — cache write invariant -/

/-- C3: on a cache miss, a null-year resolution writes nothing (the cache is
returned unchanged), and a non-null resolution writes exactly one entry under
the file's fingerprint whose year, source and confidence are the returned
triple (with the run timestamp); all other keys are untouched. -/
theorem identifyYear_cache_write_invariant (cap : SearchCap) (env : IdEnv) (f : FileEnv)
    (c : Cache) (hmiss : cacheGet c (getFileHash f) = none) :
    (((identifyYear cap env f c).1).1 = none → (identifyYear cap env f c).2.1 = c) ∧
    (∀ y, ((identifyYear cap env f c).1).1 = some y →
      cacheGet ((identifyYear cap env f c).2.1) (getFileHash f) =
        some (mkEntry (some y) ((identifyYear cap env f c).1).2.1
               ((identifyYear cap env f c).1).2.2 env.now) ∧
      ∀ k, k ≠ getFileHash f →
        cacheGet ((identifyYear cap env f c).2.1) k = cacheGet c k) := by
  rcases identifyYear_miss_out cap env f c hmiss with ⟨hnone, hc, _⟩ | ⟨⟨y', hy', _⟩, hcache⟩
  · refine ⟨fun _ => hc, fun y hy => ?_⟩
    rw [hnone] at hy; cases hy
  · constructor
    · intro h0; rw [h0] at hy'; cases hy'
    · intro y hy
      refine ⟨?_, ?_⟩
      · rw [hcache, ← hy]; exact cacheGet_set_self ..
      · intro k hk
        rw [hcache]; exact cacheGet_set_ne _ _ _ _ hk

/-- C3 witness: both halves of the invariant at concrete files — a file that
resolves no year writes nothing; a file whose tags give 2024 writes the
matching entry. -/
theorem identifyYear_cache_write_invariant_witness :
    (identifyYear emptyCap envNoSearch (sampleFile "Song Title" ".mp3" TagRead.raise) []).2.1 = [] ∧
    cacheGet ((identifyYear sampleCap sampleEnv
        (sampleFile "Song" ".mp3" (mp3Tags (some "2024-01-01"))) []).2.1)
      (getFileHash (sampleFile "Song" ".mp3" (mp3Tags (some "2024-01-01")))) =
      some (mkEntry (some 2024) "metadata" (mkRat 95 100) sampleEnv.now) :=
  ⟨(identifyYear_cache_write_invariant emptyCap envNoSearch
      (sampleFile "Song Title" ".mp3" TagRead.raise) [] rfl).1 (by decide),
   by
    have h := (identifyYear_cache_write_invariant sampleCap sampleEnv
      (sampleFile "Song" ".mp3" (mp3Tags (some "2024-01-01"))) [] rfl).2 2024 (by decide)
    have h2 := h.1
    rw [show ((identifyYear sampleCap sampleEnv
        (sampleFile "Song" ".mp3" (mp3Tags (some "2024-01-01"))) []).1).2.1 = "metadata"
      from by decide,
      show ((identifyYear sampleCap sampleEnv
        (sampleFile "Song" ".mp3" (mp3Tags (some "2024-01-01"))) []).1).2.2 = mkRat 95 100
      from by decide] at h2
    exact h2⟩

/-! ## C10 — the fingerprint ignores the directory -/

/-- C10: `get_file_hash` feeds only `st_size`, `name` and `st_mtime` to the
digest, so two files with equal basename, size and mtime — at any two paths —
get the same fingerprint; consequently, after the first file resolves a
non-null year on a cache miss, resolving the second file (under any search
capability and environment) is a cache hit that returns the first file's
triple with zero search calls. -/
theorem getFileHash_ignores_directory (cap cap2 : SearchCap) (env env2 : IdEnv)
    (f1 f2 : FileEnv) (c0 : Cache) (sz : Nat) (mt : String)
    (hs1 : f1.stat = some (sz, mt)) (hs2 : f2.stat = some (sz, mt))
    (hname : f1.name = f2.name) :
    getFileHash f1 = getFileHash f2 ∧
    (∀ y, cacheGet c0 (getFileHash f1) = none →
      ((identifyYear cap env f1 c0).1).1 = some y →
      identifyYear cap2 env2 f2 ((identifyYear cap env f1 c0).2.1) =
        ((identifyYear cap env f1 c0).1, (identifyYear cap env f1 c0).2.1, [])) := by
  have hh : getFileHash f1 = getFileHash f2 := by
    unfold getFileHash
    rw [hs1, hs2, hname]
  refine ⟨hh, ?_⟩
  intro y hmiss h
  rcases identifyYear_miss_out cap env f1 c0 hmiss with ⟨hnone, _, _⟩ | ⟨_, hcache⟩
  · rw [h] at hnone; cases hnone
  · have hhit : cacheGet ((identifyYear cap env f1 c0).2.1) (getFileHash f2) =
        some (mkEntry (identifyYear cap env f1 c0).1.1
          (identifyYear cap env f1 c0).1.2.1 (identifyYear cap env f1 c0).1.2.2 env.now) := by
      rw [← hh, hcache]; exact cacheGet_set_self ..
    rw [identifyYear_hit cap2 env2 f2 _ _ hhit]
    simp [mkEntry]

/-- C10 witness: the same basename/size/mtime in two directories, where the
second file's own tags would say 2019 but the cache entry from the first
(2024) wins. -/
theorem getFileHash_ignores_directory_witness :
    identifyYear errCap envNoSearch
        (sampleFileAt "/backup/" "Song" ".mp3" (mp3Tags (some "2019-05-05")))
        ((identifyYear sampleCap sampleEnv
           (sampleFile "Song" ".mp3" (mp3Tags (some "2024-01-01"))) []).2.1) =
      ((identifyYear sampleCap sampleEnv
         (sampleFile "Song" ".mp3" (mp3Tags (some "2024-01-01"))) []).1,
       (identifyYear sampleCap sampleEnv
         (sampleFile "Song" ".mp3" (mp3Tags (some "2024-01-01"))) []).2.1,
       []) :=
  (getFileHash_ignores_directory sampleCap errCap sampleEnv envNoSearch
      (sampleFile "Song" ".mp3" (mp3Tags (some "2024-01-01")))
      (sampleFileAt "/backup/" "Song" ".mp3" (mp3Tags (some "2019-05-05")))
      [] 1000 "1700000000.0" rfl rfl rfl).2 2024 rfl (by decide)

/-! ## Lemmas about capabilities that yield no result -/

/-- A `_try_search` whose capability raises yields `None` for that strategy. -/
theorem pyTrySearch_errCap_none (a : Option String) (t : String) :
    (pyTrySearch errCap a t).1 = none := by
  simp only [pyTrySearch, errCap]
  split <;> (split <;> rfl)

/-- A `_try_search` whose capability returns no candidates yields `None`. -/
theorem pyTrySearch_ok_nil_none (cap : SearchCap) (hcap : ∀ q, cap q = Except.ok [])
    (a : Option String) (t : String) :
    (pyTrySearch cap a t).1 = none := by
  simp only [pyTrySearch, hcap]
  split <;> (split <;> rfl)

/-- If every single `_try_search` yields `None`, the strategy cascade
yields `None`. -/
theorem searchCore_none_of (cap : SearchCap)
    (h : ∀ a t, (pyTrySearch cap a t).1 = none) (ca ct : String) :
    (searchCore cap ca ct).1 = none := by
  have hIf : ∀ (p : Prop) [Decidable p] (a' : Option String) (t' : String),
      (stratAttempt cap p a' t').1 = none := by
    intro p hp a' t'
    unfold stratAttempt
    split
    · exact h a' t'
    · rfl
  simp only [searchCore, hIf]
  rfl

/-- If every single `_try_search` yields `None`, the whole strategy engine
yields `None`. -/
theorem searchSpotify_none_of (cap : SearchCap)
    (h : ∀ a t, (pyTrySearch cap a t).1 = none) (e c : Bool) (t : String)
    (a : Option String) : (searchSpotify cap e c t a).1 = none := by
  unfold searchSpotify
  split
  · rfl
  · exact searchCore_none_of cap h _ _

theorem spotifyStep_none_of (cap : SearchCap)
    (h : ∀ a t, (pyTrySearch cap a t).1 = none) (env : IdEnv) (md : Metadata) :
    (spotifyStep cap env md).1 = none := by
  unfold spotifyStep
  split
  · exact searchSpotify_none_of cap h _ _ _ _
  · rfl

/-! ## C4 — source failures are swallowed and the waterfall continues -/

/-- The cleanup pass never touches the year. -/
theorem cleanupStep_year (md : Metadata) : (cleanupStep md).year = md.year := rfl

/-- The filename fallback never touches the year. -/
theorem fallbackStep_year (s : String) (md : Metadata) :
    (fallbackStep s md).year = md.year := by
  unfold fallbackStep
  split
  · rfl
  · dsimp only
    cases hsr : splitStem (pyStrip (String.mk (stripNoiseParen
        (stripBrackets s.data.length s.data).length (stripBrackets s.data.length s.data)))) <;>
      simp only [hsr] <;> (repeat' split) <;> rfl

/-- A raising tag reader produces the same metadata as a readable file with
no tags at all (the filename fallback runs identically). -/
theorem extractMetadata_raise_eq_emptyTags (f : FileEnv) :
    extractMetadata {f with tagRead := TagRead.raise} =
      extractMetadata {f with tagRead := TagRead.ok none none (some emptyTags)} := by
  obtain ⟨p, n, st, su, stat, tr⟩ := f
  unfold extractMetadata
  congr 2
  unfold tagStep
  by_cases hr : readsTags su = true <;> simp [hr, emptyTags, tagYear]

/-- A raising tag reader leaves the tag year absent. -/
theorem extractMetadata_raise_year (f : FileEnv) :
    (extractMetadata {f with tagRead := TagRead.raise}).year = none := by
  unfold extractMetadata
  rw [cleanupStep_year, fallbackStep_year]
  rfl

/-- `identify_year` only looks at a file through its fingerprint, its
extracted metadata and its stem. -/
theorem identifyYear_ext (cap : SearchCap) (env : IdEnv) (c : Cache) (f1 f2 : FileEnv)
    (hhash : getFileHash f1 = getFileHash f2)
    (hmd : extractMetadata f1 = extractMetadata f2)
    (hstem : f1.stem = f2.stem) :
    identifyYear cap env f1 c = identifyYear cap env f2 c := by
  unfold identifyYear
  rw [hhash, hmd, hstem]

/-- A raising capability and a no-candidates capability produce identical
`_try_search` outcomes, including the issued query. -/
theorem pyTrySearch_errCap_eq_emptyCap (a : Option String) (t : String) :
    pyTrySearch errCap a t = pyTrySearch emptyCap a t := by
  simp only [pyTrySearch, errCap, emptyCap]
  split <;> (split <;> rfl)

theorem stratAttempt_errCap_eq_emptyCap (g : Prop) [Decidable g] (a : Option String)
    (t : String) : stratAttempt errCap g a t = stratAttempt emptyCap g a t := by
  unfold stratAttempt
  split
  · exact pyTrySearch_errCap_eq_emptyCap a t
  · rfl

theorem searchSpotify_errCap_eq_emptyCap (e c : Bool) (t : String) (a : Option String) :
    searchSpotify errCap e c t a = searchSpotify emptyCap e c t a := by
  simp only [searchSpotify, searchCore, stratAttempt_errCap_eq_emptyCap]

theorem spotifyStep_errCap_eq_emptyCap (env : IdEnv) (md : Metadata) :
    spotifyStep errCap env md = spotifyStep emptyCap env md := by
  unfold spotifyStep
  split
  · exact searchSpotify_errCap_eq_emptyCap _ _ _ _
  · rfl

/-- C4: an unexpected exception inside a source step is treated as "no
result from this source" only, and never aborts the waterfall.  Part one: a
raising tag reader behaves exactly like a readable file with no tags.  Part
two: a search capability that raises on every call behaves exactly like one
returning no candidates (same result, same query log, same cache).  Part
three: with raising tags and a raising search, the downstream filename scan
is still tried and still resolves. -/
theorem identifyYear_source_failures_contained (cap : SearchCap) (env : IdEnv)
    (f : FileEnv) (c : Cache) (y : Int) :
    (identifyYear cap env {f with tagRead := TagRead.raise} c =
       identifyYear cap env {f with tagRead := TagRead.ok none none (some emptyTags)} c) ∧
    (identifyYear errCap env f c = identifyYear emptyCap env f c) ∧
    (cacheGet c (getFileHash f) = none →
     scanStem f.stem = some y →
     (identifyYear errCap env {f with tagRead := TagRead.raise} c).1 =
       (some y, "filename", mkRat 60 100)) := by
  refine ⟨?_, ?_, ?_⟩
  · exact identifyYear_ext cap env c _ _ rfl (extractMetadata_raise_eq_emptyTags f) rfl
  · simp only [identifyYear, spotifyStep_errCap_eq_emptyCap]
  · intro hmiss hscan
    have hmd : intTruthy (extractMetadata {f with tagRead := TagRead.raise}).year = false := by
      rw [extractMetadata_raise_year]
      rfl
    have hsp : (spotifyStep errCap env (extractMetadata {f with tagRead := TagRead.raise})).1 = none :=
      spotifyStep_none_of errCap pyTrySearch_errCap_none env _
    simp only [identifyYear]
    rw [show getFileHash {f with tagRead := TagRead.raise} = getFileHash f from rfl, hmiss]
    rw [if_neg (by simp [hmd])]
    rw [if_neg (by simp [hsp, intTruthy])]
    rw [show ({f with tagRead := TagRead.raise} : FileEnv).stem = f.stem from rfl, hscan]

/-- C4 witness: raising tags and raising search on a concrete file — the
filename scan still resolves 2023. -/
theorem identifyYear_source_failures_contained_witness :
    (identifyYear errCap sampleEnv
        (sampleFile "Artist - Song (2023) Live" ".mp3" TagRead.raise) []).1 =
      (some 2023, "filename", mkRat 60 100) :=
  (identifyYear_source_failures_contained errCap sampleEnv
      (sampleFile "Artist - Song (2023) Live" ".mp3" TagRead.raise) [] 2023).2.2
    rfl (by decide)

/-! ## C5 — the filename-year scan -/

/-- C5 counterexample: the stem `"2023"` is a year token bounded by the
start and the end of the string, in `[2000, 2030]` (first conjunct states the
claim's reading), yet with empty cache, no tag year and no search the
resolver returns `(None, 'unknown', 0.0)` — none of the three source
patterns accepts a token bounded by start AND end simultaneously. -/
theorem filename_scan_misses_bare_year :
    specFirstYearToken "2023" = some 2023 ∧
    (identifyYear emptyCap envNoSearch (sampleFile "2023" ".mp3" TagRead.raise) []).1 =
      (none, "unknown", 0) ∧
    ((none : Option Int), "unknown", (0 : ℚ)) ≠
      ((some 2023 : Option Int), "filename", mkRat 60 100) :=
  ⟨by decide, by decide, by decide⟩

/-- C5 (amended): when the cache misses, the tags lack a (truthy) year, and
every search call returns no candidates, `identify_year` scans the stem with
the three source patterns in order — interior `[^\d](20[0-2][0-9])[^\d]`
first, then start-anchored `^(20[0-2][0-9])[^\d]`, then end-anchored
`[^\d](20[0-2][0-9])$` — and returns the first in-range match of the first
matching pattern as `(year, 'filename', 0.60)`, else
`(None, 'unknown', 0.0)`.  A stem that is exactly the year token matches no
pattern; an interior match is preferred over a start-anchored one even when
the start-anchored token is further left. -/
theorem identifyYear_filename_scan (cap : SearchCap) (env : IdEnv) (f : FileEnv)
    (c : Cache) (hmiss : cacheGet c (getFileHash f) = none)
    (hyear : intTruthy (extractMetadata f).year = false)
    (hcap : ∀ q, cap q = Except.ok []) :
    (identifyYear cap env f c).1 =
      (match scanStem f.stem with
       | some y => (some y, "filename", mkRat 60 100)
       | none => ((none : Option Int), "unknown", (0 : ℚ))) := by
  have hsp : (spotifyStep cap env (extractMetadata f)).1 = none :=
    spotifyStep_none_of cap (pyTrySearch_ok_nil_none cap hcap) env _
  simp only [identifyYear, hmiss]
  rw [if_neg (by simp [hyear])]
  rw [if_neg (by simp [hsp, intTruthy])]
  cases hscan : scanStem f.stem <;> simp [hscan]

/-- C5 witness: `'Artist - Song (2023) Live'` yields
`(2023, 'filename', 0.60)`; `'Song Title'` with raising tags and no search
results yields `(None, 'unknown', 0.0)`. -/
theorem identifyYear_filename_scan_witness :
    (identifyYear emptyCap sampleEnv
        (sampleFile "Artist - Song (2023) Live" ".mp3" TagRead.raise) []).1 =
      (some 2023, "filename", mkRat 60 100) ∧
    (identifyYear emptyCap sampleEnv (sampleFile "Song Title" ".mp3" TagRead.raise) []).1 =
      (none, "unknown", 0) :=
  ⟨(identifyYear_filename_scan emptyCap sampleEnv _ [] rfl (by decide) (fun _ => rfl)).trans
     (by decide),
   (identifyYear_filename_scan emptyCap sampleEnv _ [] rfl (by decide) (fun _ => rfl)).trans
     (by decide)⟩

/-! ## C6 — destination selection of `move_file` -/

/-- C6 counterexample: `year = 0` is non-null and the confidence `0.9`
clears the `0.5` bar, so the claim demands the "other years" directory; but
Python's `elif year and confidence >= 0.5` treats `0` as falsy and the file
goes to `nao_identificadas`. -/
theorem moveDest_zero_year_not_outros :
    moveDest {2024, 2025} (some 0) (mkRat 9 10) = Dest.naoIdentificadas ∧
    (some (0 : Int)) ≠ (none : Option Int) ∧
    mkRat 1 2 ≤ mkRat 9 10 ∧
    Dest.naoIdentificadas ≠ Dest.outrosAnos :=
  ⟨by decide, by decide, by decide, by decide⟩

/-- C6 (amended): a year in the target set goes to that year's directory; a
non-null, non-zero year with confidence ≥ 0.5 goes to `outros_anos`;
everything else — including the Python-falsy year `0` — goes to
`nao_identificadas`. -/
theorem moveDest_selection (ty : Finset Int) (year : Option Int) (conf : ℚ) :
    (∀ y, year = some y → y ∈ ty → moveDest ty year conf = Dest.targetYear y) ∧
    (∀ y, year = some y → y ∉ ty → y ≠ 0 → mkRat 1 2 ≤ conf →
      moveDest ty year conf = Dest.outrosAnos) ∧
    ((year = none ∨ ∃ y, year = some y ∧ y ∉ ty ∧ (y = 0 ∨ conf < mkRat 1 2)) →
      moveDest ty year conf = Dest.naoIdentificadas) := by
  refine ⟨?_, ?_, ?_⟩
  · rintro y rfl hmem
    simp [moveDest, hmem]
  · rintro y rfl hmem hz hc
    simp [moveDest, hmem, hz, hc]
  · rintro (rfl | ⟨y, rfl, hmem, hrest⟩)
    · rfl
    · rcases hrest with rfl | hc
      · simp [moveDest, hmem]
      · simp [moveDest, hmem, not_le.mpr hc]

/-- C6 witness: the three destinations at concrete inputs. -/
theorem moveDest_selection_witness :
    moveDest {2024, 2025} (some 2024) (mkRat 95 100) = Dest.targetYear 2024 ∧
    moveDest {2024, 2025} (some 2019) (mkRat 70 100) = Dest.outrosAnos ∧
    moveDest {2024, 2025} none 0 = Dest.naoIdentificadas :=
  ⟨(moveDest_selection {2024, 2025} (some 2024) (mkRat 95 100)).1 2024 rfl (by decide),
   (moveDest_selection {2024, 2025} (some 2019) (mkRat 70 100)).2.1 2019 rfl
     (by decide) (by decide) (by decide),
   (moveDest_selection {2024, 2025} none 0).2.2 (Or.inl rfl)⟩

/-! ## C7 — collision-safe renaming -/

theorem digitsGo_all_lt10 : ∀ fuel n, ∀ d ∈ digitsGo fuel n, d < 10 := by
  intro fuel
  induction fuel with
  | zero => intro n d hd; simp [digitsGo] at hd
  | succ fuel ih =>
    intro n d hd
    simp only [digitsGo] at hd
    by_cases h : n < 10
    · rw [if_pos h] at hd
      simp at hd
      omega
    · rw [if_neg h] at hd
      simp at hd
      rcases hd with rfl | hd
      · omega
      · exact ih _ _ hd

theorem undigits_digitsGo : ∀ fuel n, n < fuel → undigits (digitsGo fuel n) = n := by
  intro fuel
  induction fuel with
  | zero => intro n h; omega
  | succ fuel ih =>
    intro n h
    simp only [digitsGo]
    by_cases h10 : n < 10
    · rw [if_pos h10]
      simp [undigits]
    · rw [if_neg h10]
      simp only [undigits]
      rw [ih (n / 10) (by omega)]
      omega

theorem undigits_decimalDigits (n : Nat) : undigits (decimalDigits n) = n :=
  undigits_digitsGo (n + 1) n (by omega)

theorem decimalDigits_lt10 (n : Nat) : ∀ d ∈ decimalDigits n, d < 10 :=
  fun d hd => digitsGo_all_lt10 (n + 1) n d hd

theorem charDigit_digitChar : ∀ d < 10, charDigit (digitChar d) = d := by decide

/-- The digit decoder inverts the decimal renderer. -/
theorem decode_decimalStr (n : Nat) :
    undigits (((decimalStr n).data.map charDigit).reverse) = n := by
  show undigits ((((decimalDigits n).reverse.map digitChar).map charDigit).reverse) = n
  rw [List.map_map]
  have hcongr : List.map (charDigit ∘ digitChar) (decimalDigits n).reverse =
      List.map id (decimalDigits n).reverse :=
    List.map_congr_left
      (fun d hd => charDigit_digitChar d (decimalDigits_lt10 n d (List.mem_reverse.mp hd)))
  rw [hcongr, List.map_id, List.reverse_reverse, undigits_decimalDigits]

theorem decimalStr_data_inj (m n : Nat) (h : (decimalStr m).data = (decimalStr n).data) :
    m = n := by
  have hm := decode_decimalStr m
  rw [h, decode_decimalStr n] at hm
  exact hm.symm

theorem string_data_append (s t : String) : (s ++ t).data = s.data ++ t.data := rfl

/-- The collision candidates `f"{stem}_{k}{suffix}"` are pairwise distinct. -/
theorem mkCand_inj (stem suffix : String) : Function.Injective (mkCand stem suffix) := by
  intro k1 k2 h
  have h1 : ((stem ++ "_").data ++ (decimalStr k1).data) ++ suffix.data =
      ((stem ++ "_").data ++ (decimalStr k2).data) ++ suffix.data := by
    have := congrArg String.data h
    simpa [mkCand, string_data_append, List.append_assoc] using this
  have h2 := List.append_cancel_right h1
  have h3 := List.append_cancel_left h2
  exact decimalStr_data_inj k1 k2 h3

/-- Among the first `fs.card + 1` candidates there is a free one. -/
theorem exists_free_cand (fs : Finset String) (stem suffix : String) :
    ∃ k, 1 ≤ k ∧ k ≤ fs.card + 1 ∧ mkCand stem suffix k ∉ fs := by
  by_contra hcon
  push_neg at hcon
  have hsub : (Finset.Icc 1 (fs.card + 1)).image (mkCand stem suffix) ⊆ fs := by
    intro x hx
    obtain ⟨k, hk, rfl⟩ := Finset.mem_image.mp hx
    have hk' := Finset.mem_Icc.mp hk
    exact hcon k hk'.1 hk'.2
  have hcard : ((Finset.Icc 1 (fs.card + 1)).image (mkCand stem suffix)).card = fs.card + 1 := by
    rw [Finset.card_image_of_injective _ (mkCand_inj stem suffix)]
    simp
  have := Finset.card_le_card hsub
  rw [hcard] at this
  omega

/-- The `while` loop of `move_file`, with enough fuel, stops at the least
free candidate at or after its starting counter. -/
theorem findFree_spec (fs : Finset String) (stem suffix : String) :
    ∀ fuel k, (∃ j, k ≤ j ∧ j < k + fuel ∧ mkCand stem suffix j ∉ fs) →
      findFree fs stem suffix fuel k ∉ fs ∧
      ∃ j, k ≤ j ∧ findFree fs stem suffix fuel k = mkCand stem suffix j ∧
        ∀ i, k ≤ i → i < j → mkCand stem suffix i ∈ fs := by
  intro fuel
  induction fuel with
  | zero =>
    intro k hex
    exfalso
    obtain ⟨j, hj1, hj2, _⟩ := hex
    omega
  | succ fuel ih =>
    intro k hex
    have heq : findFree fs stem suffix (fuel + 1) k =
        if mkCand stem suffix k ∈ fs then findFree fs stem suffix fuel (k + 1)
        else mkCand stem suffix k := rfl
    by_cases hk : mkCand stem suffix k ∈ fs
    · have hex' : ∃ j, k + 1 ≤ j ∧ j < (k + 1) + fuel ∧ mkCand stem suffix j ∉ fs := by
        obtain ⟨j, hj1, hj2, hj3⟩ := hex
        refine ⟨j, ?_, by omega, hj3⟩
        rcases Nat.eq_or_lt_of_le hj1 with rfl | hlt
        · exact absurd hk hj3
        · omega
      obtain ⟨hni, j, hj1, hj2, hj3⟩ := ih (k + 1) hex'
      rw [heq, if_pos hk]
      refine ⟨hni, j, by omega, hj2, ?_⟩
      intro i hi1 hi2
      rcases Nat.eq_or_lt_of_le hi1 with rfl | hlt
      · exact hk
      · exact hj3 i (by omega) hi2
    · rw [heq, if_neg hk]
      exact ⟨hk, k, le_rfl, rfl, fun i h1 h2 => absurd h1 (by omega)⟩

/-- The chosen destination name never collides with an existing file. -/
theorem moveDestName_not_mem (fs : Finset String) (stem suffix : String) :
    moveDestName fs stem suffix ∉ fs := by
  unfold moveDestName
  split
  · obtain ⟨k, hk1, hk2, hk3⟩ := exists_free_cand fs stem suffix
    exact (findFree_spec fs stem suffix (fs.card + 1) 1 ⟨k, hk1, by omega, hk3⟩).1
  · assumption

/-- C7: moving two distinct files with the same filename into the same
destination directory keeps the first under the plain name and renames the
second to the least free `stem_k.suffix` candidate (counting from 1); after
both moves both names are present; and in general `move_file` never chooses
an existing name, so nothing is overwritten. -/
theorem move_collision_safe (fs : Finset String) (stem suffix : String)
    (h : stem ++ suffix ∉ fs) :
    moveDestName fs stem suffix = stem ++ suffix ∧
    moveDestName (insert (stem ++ suffix) fs) stem suffix ∉ insert (stem ++ suffix) fs ∧
    (∃ k, 1 ≤ k ∧
      moveDestName (insert (stem ++ suffix) fs) stem suffix = mkCand stem suffix k ∧
      ∀ i, 1 ≤ i → i < k → mkCand stem suffix i ∈ insert (stem ++ suffix) fs) ∧
    (stem ++ suffix) ∈
      insert (moveDestName (insert (stem ++ suffix) fs) stem suffix)
        (insert (stem ++ suffix) fs) ∧
    moveDestName (insert (stem ++ suffix) fs) stem suffix ∈
      insert (moveDestName (insert (stem ++ suffix) fs) stem suffix)
        (insert (stem ++ suffix) fs) ∧
    moveDestName (insert (stem ++ suffix) fs) stem suffix ≠ stem ++ suffix ∧
    (∀ fs' st sf, moveDestName fs' st sf ∉ fs') := by
  have h1 : moveDestName fs stem suffix = stem ++ suffix := by
    unfold moveDestName
    rw [if_neg h]
  have hmem : (stem ++ suffix) ∈ insert (stem ++ suffix) fs := Finset.mem_insert_self _ _
  have h2eq : moveDestName (insert (stem ++ suffix) fs) stem suffix =
      findFree (insert (stem ++ suffix) fs) stem suffix
        ((insert (stem ++ suffix) fs).card + 1) 1 := by
    unfold moveDestName
    rw [if_pos hmem]
  obtain ⟨k0, hk1, hk2, hk3⟩ := exists_free_cand (insert (stem ++ suffix) fs) stem suffix
  obtain ⟨hnmem, j, hj1, hj2, hj3⟩ :=
    findFree_spec (insert (stem ++ suffix) fs) stem suffix
      ((insert (stem ++ suffix) fs).card + 1) 1 ⟨k0, hk1, by omega, hk3⟩
  refine ⟨h1, ?_, ⟨j, hj1, ?_, hj3⟩, Finset.mem_insert_of_mem hmem,
    Finset.mem_insert_self _ _, ?_, fun fs' st sf => moveDestName_not_mem fs' st sf⟩
  · rw [h2eq]; exact hnmem
  · rw [h2eq]; exact hj2
  · intro heq
    rw [h2eq] at heq
    rw [heq] at hnmem
    exact hnmem hmem

/-- C7 witness: the theorem applied to an empty directory, plus the concrete
evaluation showing the second copy of `song.mp3` becomes `song_1.mp3`. -/
theorem move_collision_safe_witness :
    moveDestName ∅ "song" ".mp3" = "song" ++ ".mp3" ∧
    moveDestName (insert ("song" ++ ".mp3") ∅) "song" ".mp3" ∉
      insert ("song" ++ ".mp3") (∅ : Finset String) ∧
    moveDestName (insert ("song" ++ ".mp3") ∅) "song" ".mp3" = "song_1.mp3" :=
  ⟨(move_collision_safe ∅ "song" ".mp3" (by decide)).1,
   (move_collision_safe ∅ "song" ".mp3" (by decide)).2.1,
   by decide⟩

/-! ## C8 — fixed strategy order, first success wins -/

/-- One step of the spec-side runner equals one guarded source attempt. -/
theorem runStrategies_cons_opt (cap : SearchCap) (g : Prop) [Decidable g]
    (a : Option String) (t : String) (rest : List (Option (Option String × String))) :
    runStrategies cap ((if g then some (a, t) else none) :: rest) =
      (if intTruthy (stratAttempt cap g a t).1 then stratAttempt cap g a t
       else ((runStrategies cap rest).1,
             (stratAttempt cap g a t).2 ++ (runStrategies cap rest).2)) := by
  by_cases hg : g
  · rw [if_pos hg]
    simp [runStrategies, stratAttempt, hg]
  · rw [if_neg hg]
    simp [runStrategies, stratAttempt, hg, intTruthy]

/-- The cascade over cleaned strings equals the spec-side ordered runner. -/
theorem searchCore_eq_runStrategies (cap : SearchCap) (ca ct : String) :
    searchCore cap ca ct = runStrategies cap (strategyArgs ca ct) := by
  simp only [searchCore, strategyArgs, runStrategies_cons_opt, runStrategies]
  split_ifs <;> simp_all [List.append_assoc]

/-- When strategy 1's attempt yields a truthy year, the cascade stops there
with exactly that attempt's query log. -/
theorem searchCore_first (cap : SearchCap) (ca ct : String) (y : Int) (lg : List String)
    (h : stratAttempt cap (ca ≠ "" ∧ ct ≠ "") (some ca) ct = (some y, lg)) (hy0 : y ≠ 0) :
    searchCore cap ca ct = (some y, lg) := by
  simp only [searchCore, h]
  rw [if_pos (by simp [intTruthy, hy0])]

/-- C8: `search_spotify` equals the spec-side engine that tries the five
strategies in the fixed order 1-5 and returns on the first (truthy) year;
and whenever strategy 1 (full artist + full title) yields a year, the engine
returns it with exactly strategy 1's query log — strategies 2-5 issue no
search calls.  A strategy year of `0` (release date "0000…") is falsy in
Python and does not stop the cascade, hence the `y ≠ 0` hypothesis. -/
theorem searchSpotify_strategy_order (cap : SearchCap) (enabled conn : Bool)
    (title : String) (artist : Option String) :
    searchSpotify cap enabled conn title artist =
      searchSpotifySpec cap enabled conn title artist ∧
    (∀ y lg, cleanArtistOf artist ≠ "" → cleanTitleOf title ≠ "" →
      pyTrySearch cap (some (cleanArtistOf artist)) (cleanTitleOf title) = (some y, lg) →
      y ≠ 0 → enabled = true → conn = true →
      searchSpotify cap enabled conn title artist = (some y, lg)) := by
  constructor
  · unfold searchSpotify searchSpotifySpec
    by_cases hg : ¬enabled = true ∨ ¬conn = true
    · rw [if_pos hg, if_pos hg]
    · rw [if_neg hg, if_neg hg]
      exact searchCore_eq_runStrategies cap _ _
  · intro y lg hca hct htry hy0 he hc
    have hs1 : stratAttempt cap (cleanArtistOf artist ≠ "" ∧ cleanTitleOf title ≠ "")
        (some (cleanArtistOf artist)) (cleanTitleOf title) = (some y, lg) := by
      unfold stratAttempt
      rw [if_pos ⟨hca, hct⟩]
      exact htry
    unfold searchSpotify
    rw [if_neg (by simp [he, hc])]
    exact searchCore_first cap _ _ y lg hs1 hy0

/-- C8 witness: a capability answering only strategy 1's query; the engine
returns its year with exactly that one query in the log. -/
theorem searchSpotify_strategy_order_witness :
    searchSpotify sampleCap true true "Hello World" (some "Adele") =
      (some 2015, ["Adele Hello World"]) :=
  (searchSpotify_strategy_order sampleCap true true "Hello World" (some "Adele")).2
    2015 ["Adele Hello World"] (by decide) (by decide) (by decide) (by decide) rfl rfl

end Chronotune

